import Mathlib

/-!
Shallow embedding of the Fluxora payment-streaming contract
(`src/contracts/stream/src/lib.rs`, Soroban/Rust).

Modelling conventions:
* `Address` is modelled as `Nat` (abstract principal identities compared by
  equality, as Soroban `Address` values are).
* `i128` values are modelled as `Int`; where overflow matters the i128 range
  bounds `[-2^127, 2^127 - 1]` appear explicitly (`checked_mul_i128`, C10).
* `u64` ledger timestamps are `Nat`; Rust `saturating_sub` on `u64`
  coincides with truncated `Nat` subtraction.
* A Soroban contract invocation that panics aborts atomically: the host
  reverts every storage write and token transfer.  An aborting run is
  therefore modelled as `Except.error e`, carrying no successor state and no
  transfer list; an `Except.ok` result carries the updated record and the
  token transfers the invocation performed.
* `require_auth a` succeeds exactly when the principal `a` authorized the
  current invocation; the set of authorizing principals is passed in as
  `auths : List Nat`.
-/

namespace Fluxora

/-- The status enum of a stream (`StreamStatus` in the source). -/
inductive StreamStatus
  | Active
  | Paused
  | Completed
  | Cancelled
  deriving DecidableEq, Repr

/-- The stored stream record (`Stream` in the source). -/
structure Stream where
  stream_id : Nat
  sender : Nat
  recipient : Nat
  deposit_amount : Int
  rate_per_second : Int
  start_time : Nat
  cliff_time : Nat
  end_time : Nat
  withdrawn_amount : Int
  status : StreamStatus
  deriving DecidableEq, Repr

/-- Abort reasons.  The source aborts via `panic!` with a message string; each
constructor names one of those messages (plus the `NotAuthorized` abort raised
by the host when `require_auth` fails). -/
inductive Err
  | notAuthorized
  | depositNotPositive
  | rateNotPositive
  | samePrincipal
  | endNotAfterStart
  | cliffOutOfRange
  | overflow
  | depositTooSmall
  | streamNotActive
  | streamNotPaused
  | notCancellable
  | alreadyCompleted
  | withdrawWhilePaused
  | nothingToWithdraw
  deriving DecidableEq, Repr

/-- One token transfer performed through the token client. -/
structure Transfer where
  src : Nat
  dst : Nat
  amount : Int
  deriving DecidableEq, Repr

/-- `true` exactly when the run aborted. -/
def isErr {α : Type} : Except Err α → Bool
  | Except.error _ => true
  | Except.ok _ => false

/-- `Address::require_auth`: succeeds iff the principal authorized this
invocation. -/
def require_auth (auths : List Nat) (a : Nat) : Except Err Unit :=
  if a ∈ auths then Except.ok () else Except.error Err.notAuthorized

/-- `require_sender_or_admin` (source lines 293-300): if the stream's sender
differs from the configured admin, demand the sender's authorization,
otherwise demand the admin's. -/
def require_sender_or_admin (admin : Nat) (auths : List Nat) (sender : Nat) :
    Except Err Unit :=
  if sender ≠ admin then require_auth auths sender
  else require_auth auths admin

/-- `calculate_accrued` (source lines 271-283), as a pure function of the
stored stream and the ledger timestamp `now`.  `saturating_sub` on `u64` is
truncated `Nat` subtraction; the i128 multiplication and `min` are on `Int`. -/
def calculate_accrued (s : Stream) (now : Nat) : Int :=
  if now < s.cliff_time then 0
  else
    min ((((min now s.end_time) - s.start_time : Nat) : Int) * s.rate_per_second)
      s.deposit_amount

/-- `pause_stream` (source lines 180-192). -/
def pause_stream (admin contractAddr : Nat) (auths : List Nat) (now : Nat)
    (s : Stream) : Except Err (Stream × List Transfer) :=
  match require_sender_or_admin admin auths s.sender with
  | Except.error e => Except.error e
  | Except.ok _ =>
    if s.status ≠ StreamStatus.Active then Except.error Err.streamNotActive
    else Except.ok ({ s with status := StreamStatus.Paused }, [])

/-- `resume_stream` (source lines 194-206). -/
def resume_stream (admin contractAddr : Nat) (auths : List Nat) (now : Nat)
    (s : Stream) : Except Err (Stream × List Transfer) :=
  match require_sender_or_admin admin auths s.sender with
  | Except.error e => Except.error e
  | Except.ok _ =>
    if s.status ≠ StreamStatus.Paused then Except.error Err.streamNotPaused
    else Except.ok ({ s with status := StreamStatus.Active }, [])

/-- `cancel_stream` (source lines 208-229): refund the unstreamed remainder to
the sender when positive, then mark the stream `Cancelled`. -/
def cancel_stream (admin contractAddr : Nat) (auths : List Nat) (now : Nat)
    (s : Stream) : Except Err (Stream × List Transfer) :=
  match require_sender_or_admin admin auths s.sender with
  | Except.error e => Except.error e
  | Except.ok _ =>
    if s.status ≠ StreamStatus.Active ∧ s.status ≠ StreamStatus.Paused then
      Except.error Err.notCancellable
    else
      let accrued := calculate_accrued s now
      let unstreamed := s.deposit_amount - accrued
      let transfers :=
        if unstreamed > 0 then [⟨contractAddr, s.sender, unstreamed⟩] else ([] : List Transfer)
      Except.ok ({ s with status := StreamStatus.Cancelled }, transfers)

/-- `cancel_stream_as_admin` (source lines 305-308): demand the admin's
authorization, then run `cancel_stream` (which re-runs its own guard). -/
def cancel_stream_as_admin (admin contractAddr : Nat) (auths : List Nat)
    (now : Nat) (s : Stream) : Except Err (Stream × List Transfer) :=
  match require_auth auths admin with
  | Except.error e => Except.error e
  | Except.ok _ => cancel_stream admin contractAddr auths now s

/-- `withdraw` (source lines 231-269): pay `accrued - withdrawn_amount` to the
recipient, bump `withdrawn_amount`, and mark `Completed` when the window has
ended and the whole deposit has been withdrawn.  Returns the updated record,
the transfers, and the paid amount (the function's return value). -/
def withdraw (admin contractAddr : Nat) (auths : List Nat) (now : Nat)
    (s : Stream) : Except Err (Stream × List Transfer × Int) :=
  match require_auth auths s.recipient with
  | Except.error e => Except.error e
  | Except.ok _ =>
    if s.status = StreamStatus.Completed then Except.error Err.alreadyCompleted
    else if s.status = StreamStatus.Paused then Except.error Err.withdrawWhilePaused
    else
      let accrued := calculate_accrued s now
      let withdrawable := accrued - s.withdrawn_amount
      if withdrawable ≤ 0 then Except.error Err.nothingToWithdraw
      else
        let s1 := { s with withdrawn_amount := s.withdrawn_amount + withdrawable }
        let s2 :=
          if now ≥ s.end_time ∧ s1.withdrawn_amount ≥ s.deposit_amount then
            { s1 with status := StreamStatus.Completed }
          else s1
        Except.ok (s2, [⟨contractAddr, s.recipient, withdrawable⟩], withdrawable)

/-- The five stream-mutating entry points, for stating lifecycle invariants. -/
inductive Op
  | pauseOp
  | resumeOp
  | cancelOp
  | cancelAsAdminOp
  | withdrawOp
  deriving DecidableEq, Repr

/-- Run one entry point on one stored stream and keep the updated record. -/
def applyOp (admin contractAddr : Nat) (auths : List Nat) (now : Nat) (op : Op)
    (s : Stream) : Except Err Stream :=
  match op with
  | Op.pauseOp => (pause_stream admin contractAddr auths now s).map Prod.fst
  | Op.resumeOp => (resume_stream admin contractAddr auths now s).map Prod.fst
  | Op.cancelOp => (cancel_stream admin contractAddr auths now s).map Prod.fst
  | Op.cancelAsAdminOp =>
      (cancel_stream_as_admin admin contractAddr auths now s).map Prod.fst
  | Op.withdrawOp => (withdraw admin contractAddr auths now s).map Prod.fst

/-- `i128::checked_mul`: the mathematical product when it fits in i128,
an overflow abort otherwise. -/
def checked_mul_i128 (a b : Int) : Except Err Int :=
  if a * b < -(2 ^ 127) ∨ a * b > 2 ^ 127 - 1 then Except.error Err.overflow
  else Except.ok (a * b)

/-- The contract-level storage the creation path touches: the config
(token/admin addresses), the `NextStreamId` counter, and the stream records
(newest first). -/
structure EnvState where
  token : Nat
  admin : Nat
  nextStreamId : Nat
  streams : List (Nat × Stream)
  deriving Repr

/-- `create_stream` (source lines 120-178): validate, pull the deposit into
custody, allocate the next id, store the new record.  Returns the new id, the
updated storage, and the transfers performed. -/
def create_stream (st : EnvState) (contractAddr : Nat) (auths : List Nat)
    (sender recipient : Nat) (deposit_amount rate_per_second : Int)
    (start_time cliff_time end_time : Nat) :
    Except Err (Nat × EnvState × List Transfer) :=
  match require_auth auths sender with
  | Except.error e => Except.error e
  | Except.ok _ =>
    if deposit_amount ≤ 0 then Except.error Err.depositNotPositive
    else if rate_per_second ≤ 0 then Except.error Err.rateNotPositive
    else if sender = recipient then Except.error Err.samePrincipal
    else if end_time ≤ start_time then Except.error Err.endNotAfterStart
    else if cliff_time < start_time ∨ cliff_time > end_time then
      Except.error Err.cliffOutOfRange
    else
      match checked_mul_i128 rate_per_second ((end_time - start_time : Nat) : Int) with
      | Except.error e => Except.error e
      | Except.ok total_streamable =>
        if deposit_amount < total_streamable then Except.error Err.depositTooSmall
        else
          let stream_id := st.nextStreamId
          let stream : Stream :=
            ⟨stream_id, sender, recipient, deposit_amount, rate_per_second,
              start_time, cliff_time, end_time, 0, StreamStatus.Active⟩
          Except.ok (stream_id,
            { st with nextStreamId := stream_id + 1,
                      streams := (stream_id, stream) :: st.streams },
            [⟨sender, contractAddr, deposit_amount⟩])

/-- The accrual formula exactly as §4.2 of the spec words it: 0 before the
cliff, otherwise `min((min(now, end_time) saturating-sub start_time) *
rate_per_second, deposit_amount)`. -/
def accrued_spec (s : Stream) (now : Nat) : Int :=
  if now < s.cliff_time then 0
  else
    min ((((min now s.end_time) - s.start_time : Nat) : Int) * s.rate_per_second)
      s.deposit_amount

/-- Total refunded amount of a transfer list. -/
def sumAmounts (ts : List Transfer) : Int := (ts.map Transfer.amount).sum

theorem require_sender_or_admin_eq (admin : Nat) (auths : List Nat) (sender : Nat) :
    require_sender_or_admin admin auths sender = require_auth auths sender := by
  unfold require_sender_or_admin
  by_cases h : sender = admin
  · subst h; simp
  · simp [h]

theorem isErr_map {α β : Type} (f : α → β) (e : Except Err α) :
    isErr (Except.map f e) = isErr e := by
  cases e <;> rfl

theorem accrued_nonneg (s : Stream) (now : Nat) (hrate : 0 ≤ s.rate_per_second)
    (hdep : 0 ≤ s.deposit_amount) : 0 ≤ calculate_accrued s now := by
  unfold calculate_accrued
  split
  · exact le_refl 0
  · exact le_min (mul_nonneg (Int.natCast_nonneg _) hrate) hdep

theorem accrued_le_deposit (s : Stream) (now : Nat) (hdep : 0 ≤ s.deposit_amount) :
    calculate_accrued s now ≤ s.deposit_amount := by
  unfold calculate_accrued
  split
  · exact hdep
  · exact min_le_right _ _

theorem pause_ok {admin ca : Nat} {auths : List Nat} {now : Nat} {s s' : Stream}
    {ts : List Transfer}
    (hok : pause_stream admin ca auths now s = Except.ok (s', ts)) :
    s.sender ∈ auths ∧ s.status = StreamStatus.Active ∧
    s' = { s with status := StreamStatus.Paused } ∧ ts = [] := by
  unfold pause_stream at hok
  rw [require_sender_or_admin_eq] at hok
  unfold require_auth at hok
  by_cases hm : s.sender ∈ auths
  · rw [if_pos hm] at hok
    by_cases hs : s.status = StreamStatus.Active
    · simp [hs] at hok
      exact ⟨hm, hs, hok.1.symm, hok.2⟩
    · simp [hs] at hok
  · rw [if_neg hm] at hok
    simp at hok

theorem resume_ok {admin ca : Nat} {auths : List Nat} {now : Nat} {s s' : Stream}
    {ts : List Transfer}
    (hok : resume_stream admin ca auths now s = Except.ok (s', ts)) :
    s.sender ∈ auths ∧ s.status = StreamStatus.Paused ∧
    s' = { s with status := StreamStatus.Active } ∧ ts = [] := by
  unfold resume_stream at hok
  rw [require_sender_or_admin_eq] at hok
  unfold require_auth at hok
  by_cases hm : s.sender ∈ auths
  · rw [if_pos hm] at hok
    by_cases hs : s.status = StreamStatus.Paused
    · simp [hs] at hok
      exact ⟨hm, hs, hok.1.symm, hok.2⟩
    · simp [hs] at hok
  · rw [if_neg hm] at hok
    simp at hok

theorem cancel_ok {admin ca : Nat} {auths : List Nat} {now : Nat} {s s' : Stream}
    {ts : List Transfer}
    (hok : cancel_stream admin ca auths now s = Except.ok (s', ts)) :
    s.sender ∈ auths ∧
    (s.status = StreamStatus.Active ∨ s.status = StreamStatus.Paused) ∧
    s' = { s with status := StreamStatus.Cancelled } ∧
    ts = (if s.deposit_amount - calculate_accrued s now > 0
          then [⟨ca, s.sender, s.deposit_amount - calculate_accrued s now⟩]
          else []) := by
  unfold cancel_stream at hok
  rw [require_sender_or_admin_eq] at hok
  unfold require_auth at hok
  by_cases hm : s.sender ∈ auths
  · rw [if_pos hm] at hok
    by_cases hs : s.status ≠ StreamStatus.Active ∧ s.status ≠ StreamStatus.Paused
    · simp only [if_pos hs] at hok
      simp at hok
    · simp only [if_neg hs] at hok
      simp only [Except.ok.injEq, Prod.mk.injEq] at hok
      refine ⟨hm, ?_, hok.1.symm, hok.2.symm⟩
      by_cases ha : s.status = StreamStatus.Active
      · exact Or.inl ha
      · exact Or.inr (by tauto)
  · rw [if_neg hm] at hok
    simp at hok

theorem cancelAdmin_ok {admin ca : Nat} {auths : List Nat} {now : Nat} {s : Stream}
    {r : Stream × List Transfer}
    (hok : cancel_stream_as_admin admin ca auths now s = Except.ok r) :
    admin ∈ auths ∧ cancel_stream admin ca auths now s = Except.ok r := by
  unfold cancel_stream_as_admin require_auth at hok
  by_cases ha : admin ∈ auths
  · rw [if_pos ha] at hok
    exact ⟨ha, hok⟩
  · rw [if_neg ha] at hok
    simp at hok

theorem withdraw_ok {admin ca : Nat} {auths : List Nat} {now : Nat} {s s' : Stream}
    {ts : List Transfer} {paid : Int}
    (hok : withdraw admin ca auths now s = Except.ok (s', ts, paid)) :
    s.recipient ∈ auths ∧ s.status ≠ StreamStatus.Completed ∧
    s.status ≠ StreamStatus.Paused ∧
    paid = calculate_accrued s now - s.withdrawn_amount ∧ 0 < paid ∧
    ts = [⟨ca, s.recipient, paid⟩] ∧
    s'.withdrawn_amount = s.withdrawn_amount + paid ∧
    s'.deposit_amount = s.deposit_amount ∧
    s'.rate_per_second = s.rate_per_second ∧
    s'.recipient = s.recipient ∧ s'.sender = s.sender ∧
    s'.start_time = s.start_time ∧ s'.cliff_time = s.cliff_time ∧
    s'.end_time = s.end_time ∧
    s'.status = (if now ≥ s.end_time ∧
        s.withdrawn_amount + paid ≥ s.deposit_amount
      then StreamStatus.Completed else s.status) := by
  unfold withdraw require_auth at hok
  by_cases hm : s.recipient ∈ auths
  · rw [if_pos hm] at hok
    by_cases hc : s.status = StreamStatus.Completed
    · simp [hc] at hok
    · by_cases hp : s.status = StreamStatus.Paused
      · simp [hc, hp] at hok
      · simp [hc, hp] at hok
        by_cases hw : calculate_accrued s now ≤ s.withdrawn_amount
        · rw [if_pos hw] at hok
          exact absurd hok (by simp)
        · rw [if_neg hw] at hok
          by_cases hdone : s.end_time ≤ now ∧
              s.deposit_amount ≤ calculate_accrued s now
          · rw [if_pos hdone, Except.ok.injEq, Prod.mk.injEq, Prod.mk.injEq] at hok
            obtain ⟨hs', hts, hpaid⟩ := hok
            subst hs'
            subst hts
            subst hpaid
            refine ⟨hm, hc, hp, rfl, by omega, rfl, ?_, rfl, rfl, rfl, rfl, rfl,
              rfl, rfl, ?_⟩
            · show calculate_accrued s now = _
              omega
            · have hcond : now ≥ s.end_time ∧
                  s.withdrawn_amount + (calculate_accrued s now - s.withdrawn_amount) ≥
                    s.deposit_amount := ⟨hdone.1, by omega⟩
              rw [if_pos hcond]
          · rw [if_neg hdone, Except.ok.injEq, Prod.mk.injEq, Prod.mk.injEq] at hok
            obtain ⟨hs', hts, hpaid⟩ := hok
            subst hs'
            subst hts
            subst hpaid
            refine ⟨hm, hc, hp, rfl, by omega, rfl, ?_, rfl, rfl, rfl, rfl, rfl,
              rfl, rfl, ?_⟩
            · show calculate_accrued s now = _
              omega
            · have hncond : ¬ (now ≥ s.end_time ∧
                  s.withdrawn_amount + (calculate_accrued s now - s.withdrawn_amount) ≥
                    s.deposit_amount) := by omega
              rw [if_neg hncond]
  · rw [if_neg hm] at hok
    simp at hok

theorem pause_err_of_not_active {admin ca : Nat} {auths : List Nat} {now : Nat}
    {s : Stream} (hs : s.status ≠ StreamStatus.Active) :
    isErr (pause_stream admin ca auths now s) = true := by
  unfold pause_stream
  rw [require_sender_or_admin_eq]
  unfold require_auth
  by_cases hm : s.sender ∈ auths
  · rw [if_pos hm]
    simp [hs, isErr]
  · rw [if_neg hm]
    rfl

theorem resume_err_of_not_paused {admin ca : Nat} {auths : List Nat} {now : Nat}
    {s : Stream} (hs : s.status ≠ StreamStatus.Paused) :
    isErr (resume_stream admin ca auths now s) = true := by
  unfold resume_stream
  rw [require_sender_or_admin_eq]
  unfold require_auth
  by_cases hm : s.sender ∈ auths
  · rw [if_pos hm]
    simp [hs, isErr]
  · rw [if_neg hm]
    rfl

theorem cancel_err_of_terminal {admin ca : Nat} {auths : List Nat} {now : Nat}
    {s : Stream} (hs : s.status ≠ StreamStatus.Active ∧ s.status ≠ StreamStatus.Paused) :
    isErr (cancel_stream admin ca auths now s) = true := by
  unfold cancel_stream
  rw [require_sender_or_admin_eq]
  unfold require_auth
  by_cases hm : s.sender ∈ auths
  · rw [if_pos hm]
    simp [hs.1, hs.2, isErr]
  · rw [if_neg hm]
    rfl

theorem cancelAdmin_err {admin ca : Nat} {auths : List Nat} {now : Nat}
    {s : Stream} (h : isErr (cancel_stream admin ca auths now s) = true) :
    isErr (cancel_stream_as_admin admin ca auths now s) = true := by
  unfold cancel_stream_as_admin require_auth
  by_cases ha : admin ∈ auths
  · rw [if_pos ha]
    exact h
  · rw [if_neg ha]
    rfl

theorem withdraw_err_of_guard {admin ca : Nat} {auths : List Nat} {now : Nat}
    {s : Stream}
    (hs : s.status = StreamStatus.Completed ∨ s.status = StreamStatus.Paused ∨
      calculate_accrued s now - s.withdrawn_amount ≤ 0) :
    isErr (withdraw admin ca auths now s) = true := by
  unfold withdraw require_auth
  by_cases hm : s.recipient ∈ auths
  · rw [if_pos hm]
    by_cases hc : s.status = StreamStatus.Completed
    · simp [hc, isErr]
    · by_cases hp : s.status = StreamStatus.Paused
      · simp [hc, hp, isErr]
      · have hw : calculate_accrued s now - s.withdrawn_amount ≤ 0 := by tauto
        simp only [hc, hp]
        simp only [if_false, ite_false]
        have hw2 : calculate_accrued s now ≤ s.withdrawn_amount := by omega
        simp [hw2, isErr]
  · rw [if_neg hm]
    rfl

/-- C1: for every stored stream and every ledger time `now`, the code's
`calculate_accrued` computes exactly the spec's formula — 0 before the cliff,
otherwise `min((min(now, end_time) saturating-sub start_time) *
rate_per_second, deposit_amount)`.  In this embedding it is a pure function of
the record and `now`, so it modifies no state. -/
theorem c1_calculate_accrued_matches_spec (s : Stream) (now : Nat) :
    calculate_accrued s now = accrued_spec s now := rfl

/-- C2 (counterexample): terminal states are NOT absorbing as claimed.  On the
stream `deposit=1000, rate=10, start=0, cliff=0, end=100`, cancelled with
nothing withdrawn, a `withdraw` by the recipient at `now = 100` succeeds and
flips the status from `Cancelled` to `Completed` (the completion check in
`withdraw` does not look at the current status), so a Cancelled stream's
status does not stay Cancelled forever. -/
theorem c2_counterexample :
    applyOp 3 9 [2] 100 Op.withdrawOp
        ⟨0, 1, 2, 1000, 10, 0, 0, 100, 0, StreamStatus.Cancelled⟩ =
      Except.ok ⟨0, 1, 2, 1000, 10, 0, 0, 100, 1000, StreamStatus.Completed⟩ := rfl

/-- C2 (amended): `Completed` is absorbing for all five operations, and
`Cancelled` is absorbing for `pause_stream`, `resume_stream`, `cancel_stream`
and `cancel_stream_as_admin`; `withdraw` may still succeed on a `Cancelled`
stream, and then either leaves the status `Cancelled` or — when
`now ≥ end_time` and the updated `withdrawn_amount` reaches `deposit_amount` —
changes it to `Completed`. -/
theorem c2_terminal_amended (admin ca : Nat) (auths : List Nat) (now : Nat)
    (op : Op) (s s' : Stream) :
    (s.status = StreamStatus.Completed →
      isErr (applyOp admin ca auths now op s) = true) ∧
    (s.status = StreamStatus.Cancelled → op ≠ Op.withdrawOp →
      isErr (applyOp admin ca auths now op s) = true) ∧
    (s.status = StreamStatus.Cancelled →
      applyOp admin ca auths now op s = Except.ok s' →
      s'.status = StreamStatus.Cancelled ∨
        (s'.status = StreamStatus.Completed ∧ now ≥ s.end_time ∧
          s'.withdrawn_amount ≥ s.deposit_amount)) := by
  refine ⟨?_, ?_, ?_⟩
  · intro hcomp
    cases op <;> simp only [applyOp, isErr_map]
    · exact pause_err_of_not_active (by simp [hcomp])
    · exact resume_err_of_not_paused (by simp [hcomp])
    · exact cancel_err_of_terminal (by simp [hcomp])
    · exact cancelAdmin_err (cancel_err_of_terminal (by simp [hcomp]))
    · exact withdraw_err_of_guard (Or.inl hcomp)
  · intro hcanc hop
    cases op <;> simp only [applyOp, isErr_map]
    · exact pause_err_of_not_active (by simp [hcanc])
    · exact resume_err_of_not_paused (by simp [hcanc])
    · exact cancel_err_of_terminal (by simp [hcanc])
    · exact cancelAdmin_err (cancel_err_of_terminal (by simp [hcanc]))
    · exact absurd rfl hop
  · intro hcanc hok
    cases op
    case pauseOp =>
      have herr := @pause_err_of_not_active admin ca auths now s
        (by simp [hcanc])
      rw [← isErr_map Prod.fst, ← applyOp] at herr
      rw [hok] at herr
      simp [isErr] at herr
    case resumeOp =>
      have herr := @resume_err_of_not_paused admin ca auths now s
        (by simp [hcanc])
      rw [← isErr_map Prod.fst, ← applyOp] at herr
      rw [hok] at herr
      simp [isErr] at herr
    case cancelOp =>
      have herr := @cancel_err_of_terminal admin ca auths now s
        (by simp [hcanc])
      rw [← isErr_map Prod.fst, ← applyOp] at herr
      rw [hok] at herr
      simp [isErr] at herr
    case cancelAsAdminOp =>
      have herr := cancelAdmin_err (@cancel_err_of_terminal admin ca auths now s
        (by simp [hcanc]))
      rw [← isErr_map Prod.fst, ← applyOp] at herr
      rw [hok] at herr
      simp [isErr] at herr
    case withdrawOp =>
      simp only [applyOp] at hok
      cases hw : withdraw admin ca auths now s with
      | error e =>
        rw [hw] at hok
        simp [Except.map] at hok
      | ok r =>
        obtain ⟨s2, ts, paid⟩ := r
        rw [hw] at hok
        simp only [Except.map, Except.ok.injEq] at hok
        obtain ⟨_, _, _, _, _, _, hwd, _, _, _, _, _, _, _, hstat⟩ :=
          withdraw_ok hw
        rw [hok] at hwd hstat
        by_cases hcond : now ≥ s.end_time ∧
            s.withdrawn_amount + paid ≥ s.deposit_amount
        · right
          rw [if_pos hcond] at hstat
          exact ⟨hstat, hcond.1, by rw [hwd]; exact hcond.2⟩
        · left
          rw [if_neg hcond] at hstat
          rw [hstat, hcanc]

/-- C2 (witness for the amended theorem): instantiated on the concrete
post-cancellation withdrawal at `now = 100`, which completes the stream. -/
theorem c2_terminal_amended_witness :
    (⟨0, 1, 2, 1000, 10, 0, 0, 100, 1000, StreamStatus.Completed⟩ : Stream).status =
        StreamStatus.Cancelled ∨
      ((⟨0, 1, 2, 1000, 10, 0, 0, 100, 1000, StreamStatus.Completed⟩ : Stream).status =
          StreamStatus.Completed ∧
        (100 : Nat) ≥
          (⟨0, 1, 2, 1000, 10, 0, 0, 100, 0, StreamStatus.Cancelled⟩ : Stream).end_time ∧
        (⟨0, 1, 2, 1000, 10, 0, 0, 100, 1000, StreamStatus.Completed⟩ : Stream).withdrawn_amount ≥
          (⟨0, 1, 2, 1000, 10, 0, 0, 100, 0, StreamStatus.Cancelled⟩ : Stream).deposit_amount) :=
  (c2_terminal_amended 3 9 [2] 100 Op.withdrawOp
      ⟨0, 1, 2, 1000, 10, 0, 0, 100, 0, StreamStatus.Cancelled⟩
      ⟨0, 1, 2, 1000, 10, 0, 0, 100, 1000, StreamStatus.Completed⟩).2.2 rfl rfl

/-- C3 (counterexample): the claim fails.  On a stream whose sender (principal
1) differs from the admin (principal 3), a call authorized by the admin alone
aborts `NotAuthorized` in `pause_stream` (the guard demands the *sender's*
authorization whenever sender ≠ admin), and `cancel_stream_as_admin` with only
admin authorization proven also aborts, because the delegated `cancel_stream`
re-runs the guard and demands the sender's authorization as well. -/
theorem c3_counterexample :
    pause_stream 3 9 [3] 0 ⟨0, 1, 2, 1000, 10, 0, 0, 100, 0, StreamStatus.Active⟩ =
      Except.error Err.notAuthorized ∧
    cancel_stream_as_admin 3 9 [3] 40
        ⟨0, 1, 2, 1000, 10, 0, 0, 100, 0, StreamStatus.Active⟩ =
      Except.error Err.notAuthorized := ⟨rfl, rfl⟩

/-- C3 (amended): the sender-or-admin guard succeeds exactly when the stream's
sender authorized the call (admin authorization alone suffices only in the
degenerate case where the sender *is* the admin); with the sender's
authorization and the status precondition, `pause_stream` succeeds; and a
successful `cancel_stream_as_admin` requires the admin's authorization AND
additionally the sender's authorization through the re-run guard. -/
theorem c3_auth_guard_amended (admin ca : Nat) (auths : List Nat) (now : Nat)
    (s : Stream) (r : Stream × List Transfer) :
    (require_sender_or_admin admin auths s.sender = Except.ok () ↔
      s.sender ∈ auths) ∧
    (cancel_stream_as_admin admin ca auths now s = Except.ok r →
      admin ∈ auths ∧ s.sender ∈ auths) ∧
    (s.sender ∈ auths → s.status = StreamStatus.Active →
      pause_stream admin ca auths now s =
        Except.ok ({ s with status := StreamStatus.Paused }, [])) := by
  refine ⟨?_, ?_, ?_⟩
  · rw [require_sender_or_admin_eq]
    unfold require_auth
    by_cases hm : s.sender ∈ auths
    · simp [hm]
    · simp [hm]
  · intro hok
    obtain ⟨s2, ts2⟩ := r
    obtain ⟨ha, hcancel⟩ := cancelAdmin_ok hok
    exact ⟨ha, (cancel_ok hcancel).1⟩
  · intro hmem hact
    unfold pause_stream
    rw [require_sender_or_admin_eq]
    unfold require_auth
    rw [if_pos hmem]
    simp [hact]

/-- C3 (witness for the amended theorem): on the concrete stream with sender 1
and admin 3, a `cancel_stream_as_admin` run authorized by both principals
succeeds, and the theorem extracts both authorizations. -/
theorem c3_auth_guard_amended_witness : (3 : Nat) ∈ [3, 1] ∧ (1 : Nat) ∈ [3, 1] :=
  (c3_auth_guard_amended 3 9 [3, 1] 40
      ⟨0, 1, 2, 1000, 10, 0, 0, 100, 0, StreamStatus.Active⟩
      (⟨0, 1, 2, 1000, 10, 0, 0, 100, 0, StreamStatus.Cancelled⟩,
        [⟨9, 1, 600⟩])).2.1 rfl

/-- C4 (counterexample): the conservation equation fails as stated.  Cancelling
the `deposit=1000, rate=10, start=0, cliff=0, end=100` stream at `now = 40`
with nothing yet withdrawn refunds the unstreamed 600 to the sender and leaves
`withdrawn_amount = 0`, so `withdrawn_amount` (post-cancellation) plus the
refunded amount is 600, not `deposit_amount = 1000` — the accrued-but-unclaimed
400 stays in custody. -/
theorem c4_counterexample :
    cancel_stream 3 9 [1] 40 ⟨0, 1, 2, 1000, 10, 0, 0, 100, 0, StreamStatus.Active⟩ =
      Except.ok (⟨0, 1, 2, 1000, 10, 0, 0, 100, 0, StreamStatus.Cancelled⟩,
        [⟨9, 1, 600⟩]) ∧
    (0 : Int) + 600 ≠ 1000 := ⟨rfl, by decide⟩

/-- C4 (amended): a successful `cancel_stream` at time `now` transfers
`deposit_amount − accrued(now)` back to the sender when that amount is
positive and transfers nothing otherwise, and the full accounting identity is
`withdrawn_amount + refund + (accrued(now) − withdrawn_amount) =
deposit_amount`: the deposit splits into the already-withdrawn part, the
refund, and the accrued-but-unwithdrawn residual left in custody.  The spec's
`withdrawn_amount + refund = deposit_amount` holds only when
`withdrawn_amount = accrued(now)` at cancellation. -/
theorem c4_cancel_settlement_amended (admin ca : Nat) (auths : List Nat)
    (now : Nat) (s s' : Stream) (ts : List Transfer)
    (hdep : 0 ≤ s.deposit_amount)
    (hok : cancel_stream admin ca auths now s = Except.ok (s', ts)) :
    (s.deposit_amount - calculate_accrued s now > 0 →
      ts = [⟨ca, s.sender, s.deposit_amount - calculate_accrued s now⟩]) ∧
    (¬ s.deposit_amount - calculate_accrued s now > 0 → ts = []) ∧
    s.withdrawn_amount + sumAmounts ts +
        (calculate_accrued s now - s.withdrawn_amount) = s.deposit_amount ∧
    s'.withdrawn_amount = s.withdrawn_amount ∧
    s'.status = StreamStatus.Cancelled := by
  obtain ⟨hm, hst, hs', hts⟩ := cancel_ok hok
  subst hs'
  have hle : calculate_accrued s now ≤ s.deposit_amount :=
    accrued_le_deposit s now hdep
  by_cases hr : s.deposit_amount - calculate_accrued s now > 0
  · rw [if_pos hr] at hts
    subst hts
    refine ⟨fun _ => rfl, fun h => absurd hr h, ?_, rfl, rfl⟩
    simp [sumAmounts]
    ring
  · rw [if_neg hr] at hts
    subst hts
    refine ⟨fun h => absurd h hr, fun _ => rfl, ?_, rfl, rfl⟩
    simp [sumAmounts]
    omega

/-- C4 (witness for the amended theorem): instantiated on the concrete
cancellation at `now = 40`: the refund is 600 and
`0 + 600 + (400 − 0) = 1000`. -/
theorem c4_cancel_settlement_amended_witness :
    ((1000 : Int) - calculate_accrued
          ⟨0, 1, 2, 1000, 10, 0, 0, 100, 0, StreamStatus.Active⟩ 40 > 0 →
      [(⟨9, 1, 600⟩ : Transfer)] = [⟨9, 1, (1000 : Int) - calculate_accrued
          ⟨0, 1, 2, 1000, 10, 0, 0, 100, 0, StreamStatus.Active⟩ 40⟩]) ∧
    (¬ (1000 : Int) - calculate_accrued
          ⟨0, 1, 2, 1000, 10, 0, 0, 100, 0, StreamStatus.Active⟩ 40 > 0 →
      [(⟨9, 1, 600⟩ : Transfer)] = []) ∧
    (0 : Int) + sumAmounts [⟨9, 1, 600⟩] +
        (calculate_accrued ⟨0, 1, 2, 1000, 10, 0, 0, 100, 0, StreamStatus.Active⟩ 40
          - 0) = 1000 ∧
    (⟨0, 1, 2, 1000, 10, 0, 0, 100, 0, StreamStatus.Cancelled⟩ : Stream).withdrawn_amount =
      (0 : Int) ∧
    (⟨0, 1, 2, 1000, 10, 0, 0, 100, 0, StreamStatus.Cancelled⟩ : Stream).status =
      StreamStatus.Cancelled :=
  c4_cancel_settlement_amended 3 9 [1] 40
    ⟨0, 1, 2, 1000, 10, 0, 0, 100, 0, StreamStatus.Active⟩
    ⟨0, 1, 2, 1000, 10, 0, 0, 100, 0, StreamStatus.Cancelled⟩
    [⟨9, 1, 600⟩] (by decide) rfl

/-- C5 (counterexample): the claim's "otherwise the stream stays Active" fails.
A `withdraw` on the (intentionally reachable) `Cancelled` stream at `now = 50`
succeeds, pays 500, the completion condition is false (`50 < end_time = 100`),
and the stream stays `Cancelled`, not `Active`. -/
theorem c5_counterexample :
    withdraw 3 9 [2] 50 ⟨0, 1, 2, 1000, 10, 0, 0, 100, 0, StreamStatus.Cancelled⟩ =
      Except.ok (⟨0, 1, 2, 1000, 10, 0, 0, 100, 500, StreamStatus.Cancelled⟩,
        [⟨9, 2, 500⟩], 500) ∧
    StreamStatus.Cancelled ≠ StreamStatus.Active ∧ ¬ ((50 : Nat) ≥ 100) :=
  ⟨rfl, by decide, by decide⟩

/-- C5 (amended): every successful `withdraw` transfers exactly
`accrued(now) − withdrawn_amount` to the recipient, increments
`withdrawn_amount` by that amount, and transitions the stream to `Completed`
if and only if `now ≥ end_time` and the updated `withdrawn_amount` reaches
`deposit_amount`; otherwise the stream keeps its prior status (an `Active`
stream stays `Active`, a `Cancelled` stream stays `Cancelled`). -/
theorem c5_withdraw_effect_amended (admin ca : Nat) (auths : List Nat)
    (now : Nat) (s s' : Stream) (ts : List Transfer) (paid : Int)
    (hok : withdraw admin ca auths now s = Except.ok (s', ts, paid)) :
    paid = calculate_accrued s now - s.withdrawn_amount ∧
    s'.withdrawn_amount = s.withdrawn_amount + paid ∧
    ts = [⟨ca, s.recipient, paid⟩] ∧
    (s'.status = StreamStatus.Completed ↔
      now ≥ s.end_time ∧ s'.withdrawn_amount ≥ s.deposit_amount) ∧
    (¬ (now ≥ s.end_time ∧ s'.withdrawn_amount ≥ s.deposit_amount) →
      s'.status = s.status) := by
  obtain ⟨hm, hc, hp, hpaid, hpos, hts, hwd, hdep, hrate, hrec, hsend, hstart,
    hcliff, hend, hstat⟩ := withdraw_ok hok
  refine ⟨hpaid, hwd, hts, ?_, ?_⟩
  · constructor
    · intro hdone
      by_cases hcond : now ≥ s.end_time ∧
          s.withdrawn_amount + paid ≥ s.deposit_amount
      · rw [hwd]
        exact ⟨hcond.1, hcond.2⟩
      · rw [if_neg hcond] at hstat
        rw [hstat] at hdone
        exact absurd hdone hc
    · intro hdone
      have hcond : now ≥ s.end_time ∧
          s.withdrawn_amount + paid ≥ s.deposit_amount := by
        rw [hwd] at hdone
        exact hdone
      rw [if_pos hcond] at hstat
      exact hstat
  · intro hdone
    have hcond : ¬ (now ≥ s.end_time ∧
        s.withdrawn_amount + paid ≥ s.deposit_amount) := by
      rw [hwd] at hdone
      exact hdone
    rw [if_neg hcond] at hstat
    exact hstat

/-- C5 (witness for the amended theorem): instantiated on the concrete
post-cancellation withdrawal at `now = 50` paying 500. -/
theorem c5_withdraw_effect_amended_witness :
    (500 : Int) = calculate_accrued
        ⟨0, 1, 2, 1000, 10, 0, 0, 100, 0, StreamStatus.Cancelled⟩ 50 - 0 ∧
    (⟨0, 1, 2, 1000, 10, 0, 0, 100, 500, StreamStatus.Cancelled⟩ : Stream).withdrawn_amount =
      (0 : Int) + 500 ∧
    [(⟨9, 2, 500⟩ : Transfer)] = [⟨9, 2, 500⟩] ∧
    ((⟨0, 1, 2, 1000, 10, 0, 0, 100, 500, StreamStatus.Cancelled⟩ : Stream).status =
        StreamStatus.Completed ↔
      (50 : Nat) ≥ 100 ∧
        (⟨0, 1, 2, 1000, 10, 0, 0, 100, 500, StreamStatus.Cancelled⟩ : Stream).withdrawn_amount ≥
          (1000 : Int)) ∧
    (¬ ((50 : Nat) ≥ 100 ∧
        (⟨0, 1, 2, 1000, 10, 0, 0, 100, 500, StreamStatus.Cancelled⟩ : Stream).withdrawn_amount ≥
          (1000 : Int)) →
      (⟨0, 1, 2, 1000, 10, 0, 0, 100, 500, StreamStatus.Cancelled⟩ : Stream).status =
        StreamStatus.Cancelled) := by
  have h := c5_withdraw_effect_amended 3 9 [2] 50
    ⟨0, 1, 2, 1000, 10, 0, 0, 100, 0, StreamStatus.Cancelled⟩
    ⟨0, 1, 2, 1000, 10, 0, 0, 100, 500, StreamStatus.Cancelled⟩
    [⟨9, 2, 500⟩] 500 rfl
  exact h

/-- C6: for every stream satisfying the creation preconditions
(`rate_per_second > 0`, `deposit_amount > 0`,
`start_time ≤ cliff_time ≤ end_time`, `start_time < end_time`), accrual is
monotone in `now` (`now1 ≤ now2 → accrued(now1) ≤ accrued(now2)`) and bounded
above by `deposit_amount` at every time `now3`. -/
theorem c6_accrued_monotone_bounded (s : Stream) (now1 now2 now3 : Nat)
    (hrate : 0 < s.rate_per_second) (hdep : 0 < s.deposit_amount)
    (h1 : s.start_time ≤ s.cliff_time) (h2 : s.cliff_time ≤ s.end_time)
    (h3 : s.start_time < s.end_time) (h12 : now1 ≤ now2) :
    calculate_accrued s now1 ≤ calculate_accrued s now2 ∧
    calculate_accrued s now3 ≤ s.deposit_amount := by
  refine ⟨?_, accrued_le_deposit s now3 hdep.le⟩
  by_cases hc1 : now1 < s.cliff_time
  · rw [calculate_accrued, if_pos hc1]
    exact accrued_nonneg s now2 hrate.le hdep.le
  · have hc2 : ¬ now2 < s.cliff_time := by omega
    rw [calculate_accrued, if_neg hc1, calculate_accrued, if_neg hc2]
    have helap : ((min now1 s.end_time - s.start_time : Nat) : Int) ≤
        ((min now2 s.end_time - s.start_time : Nat) : Int) := by
      have : min now1 s.end_time ≤ min now2 s.end_time :=
        min_le_min h12 (le_refl _)
      omega
    exact min_le_min
      (mul_le_mul_of_nonneg_right helap hrate.le) (le_refl _)

/-- C6 (witness): instantiated on the `deposit=1000, rate=10, cliff=0,
window 0–100` stream at `now1 = 30 ≤ now2 = 50`, and the bound at
`now3 = 500`. -/
theorem c6_accrued_monotone_bounded_witness :
    calculate_accrued ⟨0, 1, 2, 1000, 10, 0, 0, 100, 0, StreamStatus.Active⟩ 30 ≤
      calculate_accrued ⟨0, 1, 2, 1000, 10, 0, 0, 100, 0, StreamStatus.Active⟩ 50 ∧
    calculate_accrued ⟨0, 1, 2, 1000, 10, 0, 0, 100, 0, StreamStatus.Active⟩ 500 ≤
      (1000 : Int) :=
  c6_accrued_monotone_bounded ⟨0, 1, 2, 1000, 10, 0, 0, 100, 0, StreamStatus.Active⟩
    30 50 500 (by decide) (by decide) (by decide) (by decide) (by decide) (by decide)

theorem create_ok {st : EnvState} {ca : Nat} {auths : List Nat}
    {sender recipient : Nat} {dep rate : Int} {t0 tc t1 : Nat}
    {i : Nat} {st2 : EnvState} {ts : List Transfer}
    (hok : create_stream st ca auths sender recipient dep rate t0 tc t1 =
      Except.ok (i, st2, ts)) :
    sender ∈ auths ∧ 0 < dep ∧ 0 < rate ∧ sender ≠ recipient ∧ t0 < t1 ∧
    t0 ≤ tc ∧ tc ≤ t1 ∧
    -(2 ^ 127) ≤ rate * ((t1 - t0 : Nat) : Int) ∧
    rate * ((t1 - t0 : Nat) : Int) ≤ 2 ^ 127 - 1 ∧
    rate * ((t1 - t0 : Nat) : Int) ≤ dep ∧
    i = st.nextStreamId ∧
    st2 = { st with
            nextStreamId := st.nextStreamId + 1,
            streams := (st.nextStreamId,
              ⟨st.nextStreamId, sender, recipient, dep, rate, t0, tc, t1, 0,
                StreamStatus.Active⟩) :: st.streams } ∧
    ts = [⟨sender, ca, dep⟩] := by
  unfold create_stream require_auth at hok
  by_cases hm : sender ∈ auths
  · rw [if_pos hm] at hok
    by_cases h1 : dep ≤ 0
    · simp [h1] at hok
    · by_cases h2 : rate ≤ 0
      · simp [h1, h2] at hok
      · by_cases h3 : sender = recipient
        · simp [h1, h2, h3] at hok
        · by_cases h4 : t1 ≤ t0
          · simp [h1, h2, h3, h4] at hok
          · by_cases h5 : tc < t0 ∨ t1 < tc
            · simp [h1, h2, h3, h4, h5] at hok
            · simp only [h1, h2, h3, h4, h5, if_false, ite_false] at hok
              cases hmul : checked_mul_i128 rate ((t1 - t0 : Nat) : Int) with
              | error e =>
                rw [hmul] at hok
                simp at hok
              | ok total =>
                rw [hmul] at hok
                have htot : total = rate * ((t1 - t0 : Nat) : Int) ∧
                    -(2 ^ 127) ≤ rate * ((t1 - t0 : Nat) : Int) ∧
                    rate * ((t1 - t0 : Nat) : Int) ≤ 2 ^ 127 - 1 := by
                  unfold checked_mul_i128 at hmul
                  by_cases hcond : rate * ((t1 - t0 : Nat) : Int) < -(2 ^ 127) ∨
                      rate * ((t1 - t0 : Nat) : Int) > 2 ^ 127 - 1
                  · rw [if_pos hcond] at hmul
                    simp at hmul
                  · rw [if_neg hcond] at hmul
                    push_neg at hcond
                    simp at hmul
                    exact ⟨hmul.symm, hcond.1, hcond.2⟩
                obtain ⟨heq, hbl, hbh⟩ := htot
                subst heq
                by_cases h7 : dep < rate * ((t1 - t0 : Nat) : Int)
                · simp [h7] at hok
                · simp only [h7, if_false, ite_false, Except.ok.injEq,
                    Prod.mk.injEq] at hok
                  obtain ⟨hi, hst2, hts⟩ := hok
                  push_neg at h5
                  refine ⟨hm, by omega, by omega, h3, by omega, h5.1, h5.2,
                    hbl, hbh, by omega, hi.symm, hst2.symm, hts.symm⟩
  · rw [if_neg hm] at hok
    simp at hok

/-- C7: `create_stream` rejects every call whose `deposit_amount` is below
`rate_per_second × (end_time − start_time)`, and when that product overflows
i128 the call is rejected with the overflow abort (from `checked_mul`) rather
than wrapping.  In this embedding an aborting invocation is `Except.error`,
which — matching the Soroban host's all-or-nothing semantics — carries no
updated storage (so no stream is stored and the counter is unchanged) and no
transfer list (so no funds move). -/
theorem c7_create_undercapitalised_rejected (st : EnvState) (ca : Nat)
    (auths : List Nat) (sender recipient : Nat) (dep rate : Int)
    (t0 tc t1 : Nat) :
    (dep < rate * ((t1 - t0 : Nat) : Int) →
      isErr (create_stream st ca auths sender recipient dep rate t0 tc t1) =
        true) ∧
    (sender ∈ auths → 0 < dep → 0 < rate → sender ≠ recipient → t0 < t1 →
      t0 ≤ tc → tc ≤ t1 → 2 ^ 127 - 1 < rate * ((t1 - t0 : Nat) : Int) →
      create_stream st ca auths sender recipient dep rate t0 tc t1 =
        Except.error Err.overflow) := by
  constructor
  · intro hlt
    cases h : create_stream st ca auths sender recipient dep rate t0 tc t1 with
    | error e => rfl
    | ok r =>
      obtain ⟨i, st2, ts⟩ := r
      obtain ⟨_, _, _, _, _, _, _, _, _, hcov, _⟩ := create_ok h
      exact absurd hcov (not_le.mpr hlt)
  · intro hm h1 h2 h3 h4 h5a h5b hov
    unfold create_stream require_auth
    rw [if_pos hm]
    rw [if_neg (by omega : ¬ dep ≤ 0)]
    rw [if_neg (by omega : ¬ rate ≤ 0)]
    rw [if_neg h3]
    rw [if_neg (by omega : ¬ t1 ≤ t0)]
    rw [if_neg (by omega : ¬ (tc < t0 ∨ t1 < tc))]
    have gmul : checked_mul_i128 rate ((t1 - t0 : Nat) : Int) =
        Except.error Err.overflow := by
      unfold checked_mul_i128
      rw [if_pos (Or.inr hov)]
    rw [gmul]

/-- C7 (witness): a creation with `deposit = 5 < rate × duration = 10` is
rejected, and a creation with `rate = 2^126` over a 4-second window
(product `2^128`, above `i128::MAX`) is rejected with the overflow abort. -/
theorem c7_create_undercapitalised_rejected_witness :
    isErr (create_stream ⟨7, 3, 0, []⟩ 9 [1] 1 2 5 10 0 0 1) = true ∧
    create_stream ⟨7, 3, 0, []⟩ 9 [1] 1 2 1 (2 ^ 126) 0 0 4 =
      Except.error Err.overflow :=
  ⟨(c7_create_undercapitalised_rejected ⟨7, 3, 0, []⟩ 9 [1] 1 2 5 10 0 0 1).1
      (by norm_num),
    (c7_create_undercapitalised_rejected ⟨7, 3, 0, []⟩ 9 [1] 1 2 1 (2 ^ 126)
        0 0 4).2
      (by decide) (by decide) (by norm_num) (by decide) (by decide) (by decide)
      (by decide) (by norm_num)⟩

/-- C8: `withdraw` aborts whenever the stream is `Completed`, whenever it is
`Paused`, and whenever `accrued(now) − withdrawn_amount ≤ 0` (in this
embedding an abort is `Except.error`, which per the host's all-or-nothing
semantics leaves all state unchanged); and it does NOT abort merely because
the status is `Cancelled`: with the recipient's authorization and a positive
withdrawable amount, a withdraw on a `Cancelled` stream succeeds and pays out
exactly `accrued(now) − withdrawn_amount`, so the accrued-but-unwithdrawn
balance from before cancellation remains claimable. -/
theorem c8_withdraw_guard_behavior (admin ca : Nat) (auths : List Nat)
    (now : Nat) (s : Stream) :
    (s.status = StreamStatus.Completed →
      isErr (withdraw admin ca auths now s) = true) ∧
    (s.status = StreamStatus.Paused →
      isErr (withdraw admin ca auths now s) = true) ∧
    (calculate_accrued s now - s.withdrawn_amount ≤ 0 →
      isErr (withdraw admin ca auths now s) = true) ∧
    (s.status = StreamStatus.Cancelled → s.recipient ∈ auths →
      0 < calculate_accrued s now - s.withdrawn_amount →
      (withdraw admin ca auths now s).map (fun r => r.2.2) =
        Except.ok (calculate_accrued s now - s.withdrawn_amount)) := by
  refine ⟨fun h => withdraw_err_of_guard (Or.inl h),
    fun h => withdraw_err_of_guard (Or.inr (Or.inl h)),
    fun h => withdraw_err_of_guard (Or.inr (Or.inr h)), ?_⟩
  intro hcanc hm hpos
  unfold withdraw require_auth
  rw [if_pos hm]
  have hw : ¬ calculate_accrued s now ≤ s.withdrawn_amount := by omega
  simp [hcanc, hw, Except.map]

/-- C8 (witness): a `Completed` stream, a `Paused` stream, and a pre-cliff
stream (nothing withdrawable) each abort; the cancelled stream at `now = 50`
pays out its residual 500. -/
theorem c8_withdraw_guard_behavior_witness :
    isErr (withdraw 3 9 [2] 50
      ⟨0, 1, 2, 1000, 10, 0, 0, 100, 1000, StreamStatus.Completed⟩) = true ∧
    isErr (withdraw 3 9 [2] 50
      ⟨0, 1, 2, 1000, 10, 0, 0, 100, 0, StreamStatus.Paused⟩) = true ∧
    isErr (withdraw 3 9 [2] 20
      ⟨0, 1, 2, 1000, 10, 0, 30, 100, 0, StreamStatus.Active⟩) = true ∧
    (withdraw 3 9 [2] 50
        ⟨0, 1, 2, 1000, 10, 0, 0, 100, 0, StreamStatus.Cancelled⟩).map
        (fun r => r.2.2) =
      Except.ok (calculate_accrued
        ⟨0, 1, 2, 1000, 10, 0, 0, 100, 0, StreamStatus.Cancelled⟩ 50 - 0) :=
  ⟨(c8_withdraw_guard_behavior 3 9 [2] 50
      ⟨0, 1, 2, 1000, 10, 0, 0, 100, 1000, StreamStatus.Completed⟩).1 rfl,
    (c8_withdraw_guard_behavior 3 9 [2] 50
      ⟨0, 1, 2, 1000, 10, 0, 0, 100, 0, StreamStatus.Paused⟩).2.1 rfl,
    (c8_withdraw_guard_behavior 3 9 [2] 20
      ⟨0, 1, 2, 1000, 10, 0, 30, 100, 0, StreamStatus.Active⟩).2.2.1 (by decide),
    (c8_withdraw_guard_behavior 3 9 [2] 50
      ⟨0, 1, 2, 1000, 10, 0, 0, 100, 0, StreamStatus.Cancelled⟩).2.2.2 rfl
      (by decide) (by decide)⟩

/-- C9: every operation preserves `0 ≤ withdrawn_amount ≤ deposit_amount`:
`create_stream` stores the new record with `withdrawn_amount = 0` (and a
positive deposit), `withdraw` is the only operation that changes
`withdrawn_amount`, each successful `withdraw` strictly increases it, and it
never exceeds `deposit_amount` (which no operation changes). -/
theorem c9_withdrawn_amount_invariant (admin ca : Nat) (auths : List Nat)
    (now : Nat) (op : Op) (s s' : Stream) (est est2 : EnvState)
    (sender recipient : Nat) (dep rate : Int) (t0 tc t1 : Nat) (i : Nat)
    (ts : List Transfer)
    (hlo : 0 ≤ s.withdrawn_amount) (hhi : s.withdrawn_amount ≤ s.deposit_amount) :
    (applyOp admin ca auths now op s = Except.ok s' →
      (0 ≤ s'.withdrawn_amount ∧ s'.withdrawn_amount ≤ s'.deposit_amount) ∧
      s'.deposit_amount = s.deposit_amount ∧
      (op ≠ Op.withdrawOp → s'.withdrawn_amount = s.withdrawn_amount) ∧
      (op = Op.withdrawOp → s.withdrawn_amount < s'.withdrawn_amount)) ∧
    (create_stream est ca auths sender recipient dep rate t0 tc t1 =
        Except.ok (i, est2, ts) →
      est2.streams = (i, ⟨i, sender, recipient, dep, rate, t0, tc, t1, 0,
          StreamStatus.Active⟩) :: est.streams ∧ (0 : Int) ≤ dep) := by
  constructor
  · intro hok
    cases op
    case pauseOp =>
      simp only [applyOp] at hok
      cases hw : pause_stream admin ca auths now s with
      | error e =>
        rw [hw] at hok
        simp [Except.map] at hok
      | ok r =>
        obtain ⟨s2, ts2⟩ := r
        rw [hw] at hok
        simp only [Except.map, Except.ok.injEq] at hok
        obtain ⟨_, _, hs2, _⟩ := pause_ok hw
        subst hs2
        rw [← hok]
        exact ⟨⟨hlo, hhi⟩, rfl, fun _ => rfl, fun h => by simp at h⟩
    case resumeOp =>
      simp only [applyOp] at hok
      cases hw : resume_stream admin ca auths now s with
      | error e =>
        rw [hw] at hok
        simp [Except.map] at hok
      | ok r =>
        obtain ⟨s2, ts2⟩ := r
        rw [hw] at hok
        simp only [Except.map, Except.ok.injEq] at hok
        obtain ⟨_, _, hs2, _⟩ := resume_ok hw
        subst hs2
        rw [← hok]
        exact ⟨⟨hlo, hhi⟩, rfl, fun _ => rfl, fun h => by simp at h⟩
    case cancelOp =>
      simp only [applyOp] at hok
      cases hw : cancel_stream admin ca auths now s with
      | error e =>
        rw [hw] at hok
        simp [Except.map] at hok
      | ok r =>
        obtain ⟨s2, ts2⟩ := r
        rw [hw] at hok
        simp only [Except.map, Except.ok.injEq] at hok
        obtain ⟨_, _, hs2, _⟩ := cancel_ok hw
        subst hs2
        rw [← hok]
        exact ⟨⟨hlo, hhi⟩, rfl, fun _ => rfl, fun h => by simp at h⟩
    case cancelAsAdminOp =>
      simp only [applyOp] at hok
      cases hw : cancel_stream_as_admin admin ca auths now s with
      | error e =>
        rw [hw] at hok
        simp [Except.map] at hok
      | ok r =>
        obtain ⟨s2, ts2⟩ := r
        rw [hw] at hok
        simp only [Except.map, Except.ok.injEq] at hok
        obtain ⟨_, hcancel⟩ := cancelAdmin_ok hw
        obtain ⟨_, _, hs2, _⟩ := cancel_ok hcancel
        subst hs2
        rw [← hok]
        exact ⟨⟨hlo, hhi⟩, rfl, fun _ => rfl, fun h => by simp at h⟩
    case withdrawOp =>
      simp only [applyOp] at hok
      cases hw : withdraw admin ca auths now s with
      | error e =>
        rw [hw] at hok
        simp [Except.map] at hok
      | ok r =>
        obtain ⟨s2, ts2, paid⟩ := r
        rw [hw] at hok
        simp only [Except.map, Except.ok.injEq] at hok
        obtain ⟨_, _, _, hpaid, hpos, _, hwd, hdepEq, _, _, _, _, _, _, _⟩ :=
          withdraw_ok hw
        rw [hok] at hwd hdepEq
        have hdep0 : 0 ≤ s.deposit_amount := le_trans hlo hhi
        have hacc := accrued_le_deposit s now hdep0
        refine ⟨⟨by omega, by omega⟩, hdepEq, fun h => by simp at h,
          fun _ => by omega⟩
  · intro hok
    obtain ⟨hm, h1, h2, h3, h4, h5, h6, hbl, hbh, hcov, hi, hst2, hts⟩ :=
      create_ok hok
    subst hi
    subst hst2
    exact ⟨rfl, by omega⟩

set_option maxRecDepth 8192 in
/-- C9 (witness): instantiated on the concrete `withdraw` at `now = 50` (which
raises `withdrawn_amount` from 0 to 500 ≤ 1000) and on the concrete successful
creation storing a fresh record with `withdrawn_amount = 0`. -/
theorem c9_withdrawn_amount_invariant_witness :
    (((0 : Int) ≤ 500 ∧ (500 : Int) ≤ 1000) ∧ (1000 : Int) = 1000 ∧
      (Op.withdrawOp ≠ Op.withdrawOp → (500 : Int) = 0) ∧
      (Op.withdrawOp = Op.withdrawOp → (0 : Int) < 500)) ∧
    (([(0, (⟨0, 1, 2, 1000, 10, 0, 0, 100, 0, StreamStatus.Active⟩ : Stream))] :
        List (Nat × Stream)) =
      [(0, ⟨0, 1, 2, 1000, 10, 0, 0, 100, 0, StreamStatus.Active⟩)] ∧
      (0 : Int) ≤ 1000) := by
  have h := c9_withdrawn_amount_invariant 3 9 [2, 1] 50 Op.withdrawOp
    ⟨0, 1, 2, 1000, 10, 0, 0, 100, 0, StreamStatus.Active⟩
    ⟨0, 1, 2, 1000, 10, 0, 0, 100, 500, StreamStatus.Active⟩
    ⟨7, 3, 0, []⟩
    ⟨7, 3, 1, [(0, ⟨0, 1, 2, 1000, 10, 0, 0, 100, 0, StreamStatus.Active⟩)]⟩
    1 2 1000 10 0 0 100 0 [⟨1, 9, 1000⟩] (by decide) (by decide)
  exact ⟨h.1 rfl, h.2 rfl⟩

/-- C10: for every stream satisfying the stored invariant
`rate_per_second × (end_time − start_time) ≤ deposit_amount` with positive
rate and deposit and `deposit_amount` a valid i128, the product
`elapsed * rate_per_second` computed inside `calculate_accrued` (with
`elapsed = min(now, end_time) saturating-sub start_time`) lies in
`[0, deposit_amount] ⊆ [−2^127, 2^127 − 1]`, so the unchecked i128
multiplication never overflows (a checked multiplication would return the same
product), and past the cliff `calculate_accrued` equals that product (the
`min` with `deposit_amount` never truncates it): the function is total for all
created streams. -/
theorem c10_accrual_multiplication_safe (s : Stream) (now : Nat)
    (hrate : 0 < s.rate_per_second) (hdep : 0 < s.deposit_amount)
    (hmax : s.deposit_amount ≤ 2 ^ 127 - 1)
    (hcover : s.rate_per_second * ((s.end_time - s.start_time : Nat) : Int) ≤
      s.deposit_amount) :
    0 ≤ ((min now s.end_time - s.start_time : Nat) : Int) * s.rate_per_second ∧
    ((min now s.end_time - s.start_time : Nat) : Int) * s.rate_per_second ≤
      s.deposit_amount ∧
    checked_mul_i128 ((min now s.end_time - s.start_time : Nat) : Int)
        s.rate_per_second =
      Except.ok (((min now s.end_time - s.start_time : Nat) : Int) *
        s.rate_per_second) ∧
    (¬ now < s.cliff_time → calculate_accrued s now =
      ((min now s.end_time - s.start_time : Nat) : Int) * s.rate_per_second) := by
  have helap : ((min now s.end_time - s.start_time : Nat) : Int) ≤
      ((s.end_time - s.start_time : Nat) : Int) := by
    have hm : min now s.end_time ≤ s.end_time := min_le_right _ _
    omega
  have h0 : (0 : Int) ≤ ((min now s.end_time - s.start_time : Nat) : Int) :=
    Int.natCast_nonneg _
  have hprod : ((min now s.end_time - s.start_time : Nat) : Int) *
      s.rate_per_second ≤ s.deposit_amount :=
    calc ((min now s.end_time - s.start_time : Nat) : Int) * s.rate_per_second
        ≤ ((s.end_time - s.start_time : Nat) : Int) * s.rate_per_second :=
          mul_le_mul_of_nonneg_right helap hrate.le
      _ = s.rate_per_second * ((s.end_time - s.start_time : Nat) : Int) :=
          mul_comm _ _
      _ ≤ s.deposit_amount := hcover
  have hnn : (0 : Int) ≤ ((min now s.end_time - s.start_time : Nat) : Int) *
      s.rate_per_second := mul_nonneg h0 hrate.le
  refine ⟨hnn, hprod, ?_, ?_⟩
  · have hno : ¬ (((min now s.end_time - s.start_time : Nat) : Int) *
        s.rate_per_second < -(2 ^ 127) ∨
        ((min now s.end_time - s.start_time : Nat) : Int) *
          s.rate_per_second > 2 ^ 127 - 1) := by
      push_neg
      constructor
      · linarith
      · linarith
    unfold checked_mul_i128
    rw [if_neg hno]
  · intro hcl
    rw [calculate_accrued, if_neg hcl]
    exact min_eq_left hprod

/-- C10 (witness): instantiated on the `deposit=1000, rate=10, window 0–100`
stream at `now = 50`: the product is 500, within bounds, and equals the
accrual. -/
theorem c10_accrual_multiplication_safe_witness :
    (0 : Int) ≤ ((min 50 100 - 0 : Nat) : Int) * 10 ∧
    ((min 50 100 - 0 : Nat) : Int) * 10 ≤ 1000 ∧
    checked_mul_i128 ((min 50 100 - 0 : Nat) : Int) 10 =
      Except.ok (((min 50 100 - 0 : Nat) : Int) * 10) ∧
    (¬ (50 : Nat) < 0 → calculate_accrued
        ⟨0, 1, 2, 1000, 10, 0, 0, 100, 0, StreamStatus.Active⟩ 50 =
      ((min 50 100 - 0 : Nat) : Int) * 10) := by
  have h := c10_accrual_multiplication_safe
    ⟨0, 1, 2, 1000, 10, 0, 0, 100, 0, StreamStatus.Active⟩ 50
    (by decide) (by decide) (by norm_num) (by norm_num)
  exact h

end Fluxora
